import Mathlib

/-!
Verification of the pundun client transport (`pundun/client.py`).

The development shallowly embeds the request/response transport of the
`Client` class: frame encoding in `_write_pdu`, frame decoding and
response dispatch in `_listener`, the correlation dictionary
`message_dict`, the sequence allocators `_get_cid` / `_get_tid`, and
the teardown path `cleanup`.  Byte strings are lists of naturals,
each below 256; fallible Python operations (`int.to_bytes` overflow,
`StreamReader.readexactly` failures, `Queue.put_nowait` on a full
queue) are modelled with `Option`.
-/

namespace PundunClient

/-- An opaque serialized application message (a Python `bytes` value),
as produced by `pdu.SerializeToString()` at line 391. -/
abbrev Payload := List Nat

/-- The contents of an `asyncio.Queue` of payloads, front of the list
being the element `get` would return first. -/
abbrev Queue := List Payload

/-- The correlation dictionary `self.message_dict` (line 20): a map
from correlation id to the waiting queue, `none` when no entry exists. -/
abbrev Table := Nat → Option Queue

/-- Big-endian encoding of `v` on exactly `n` bytes, the core of
Python's `v.to_bytes(n, byteorder='big')` (lines 394 and 396). -/
def natToBytesBE : Nat → Nat → List Nat
  | 0, _ => []
  | n + 1, v => natToBytesBE n (v / 256) ++ [v % 256]

/-- Python's `int.from_bytes(bs, byteorder='big')` (lines 56 and 58). -/
def intFromBytesBE (bs : List Nat) : Nat :=
  bs.foldl (fun acc b => acc * 256 + b) 0

/-- Python's `v.to_bytes(n, byteorder='big')`: raises `OverflowError`
(modelled as `none`) when `v` does not fit in `n` bytes. -/
def pyToBytes (n v : Nat) : Option (List Nat) :=
  if v < 256 ^ n then some (natToBytesBE n v) else none

/-- Python's `asyncio.StreamReader.readexactly(n)` on a buffered stream:
raises `ValueError` when `n` is negative, raises
`IncompleteReadError` when the stream ends before `n` bytes arrive
(both modelled as `none`), and otherwise returns the first `n` bytes
together with the rest of the stream. -/
def readexactly (n : Int) (s : List Nat) : Option (List Nat × List Nat) :=
  if n < 0 then none
  else if n.toNat ≤ s.length then some (s.take n.toNat, s.drop n.toNat)
  else none

/-- Frame decoding performed by `_listener` (lines 55-59): read 4
bytes and interpret them as the big-endian `length`, read 2 bytes as
the big-endian cid, then read `length - 2` bytes of payload.  Returns
the cid, the payload and the remaining stream.  Any read failure
(short stream, or the negative read size arising when `length < 2`)
is `none`, which in the source breaks the listener loop. -/
def decodeFrame (s : List Nat) : Option (Nat × Payload × List Nat) := do
  let (lenBytes, s1) ← readexactly 4 s
  let len := intFromBytesBE lenBytes
  let (cidBytes, s2) ← readexactly 2 s1
  let cid := intFromBytesBE cidBytes
  let (data, s3) ← readexactly ((len : Int) - 2) s2
  some (cid, data, s3)

/-- Frame encoding performed by `_write_pdu` (lines 393-399):
`cid_bytes = cid.to_bytes(2, 'big')`, `length = len(data) + 2`,
`len_bytes = length.to_bytes(4, 'big')`,
`msg = len_bytes + cid_bytes + data`.  `none` models the
`OverflowError` raised when a field does not fit. -/
def encodeFrame (cid : Nat) (data : Payload) : Option (List Nat) := do
  let cidBytes ← pyToBytes 2 cid
  let lenBytes ← pyToBytes 4 (data.length + 2)
  some (lenBytes ++ (cidBytes ++ data))

/-- The mutable state of a `Client` instance relevant to the
transport: `self.tid` (line 18), `self.cid` (line 19),
`self.message_dict` (line 20), and whether the socket opened by
`_connect` is still open. -/
structure ClientState where
  tid : Nat
  cid : Nat
  messageDict : Table
  connOpen : Bool

/-- The state right after `__init__` (lines 18-22): both counters 0,
empty correlation dictionary, connection open. -/
def freshClient : ClientState :=
  { tid := 0, cid := 0, messageDict := fun _ => none, connOpen := true }

/-- Embeds `_get_tid` (lines 415-421): return the current `self.tid`, then
set it to 0 when it equals 4294967295 and increment it otherwise. -/
def getTid (s : ClientState) : Nat × ClientState :=
  (s.tid, { s with tid := if s.tid = 4294967295 then 0 else s.tid + 1 })

/-- Embeds `_get_cid` (lines 423-429): return the current `self.cid`, then
set it to 0 when it equals 65535 and increment it otherwise. -/
def getCid (s : ClientState) : Nat × ClientState :=
  (s.cid, { s with cid := if s.cid = 65535 then 0 else s.cid + 1 })

/-- Lines 402-403 of `_write_pdu`:
`q = asyncio.Queue(maxsize=1); self.message_dict[cid] = q`.
A fresh empty queue is assigned to the cid unconditionally; the
source performs no membership check before the assignment. -/
def registerWaiter (T : Table) (cid : Nat) : Table :=
  fun c => if c = cid then some [] else T c

/-- Line 412 of `_write_pdu`: `del self.message_dict[cid]`. -/
def removeCid (T : Table) (cid : Nat) : Table :=
  fun c => if c = cid then none else T c

/-- The observable actions `_write_pdu` performs before awaiting, in
source order. -/
inductive SendEvent where
  | allocTid (tid : Nat)
  | allocCid (cid : Nat)
  | socketWrite (msg : List Nat)
  | registerCid (cid : Nat)
  | awaitResponse (cid : Nat)
  deriving DecidableEq

/-- The pre-await phase of `_write_pdu` (lines 388-404), transcribed
in statement order: allocate the transaction id (line 389, the id is
serialized into the opaque payload), allocate the cid (line 393),
build the frame (lines 394-399), write it to the socket (line 401),
then create and register the waiter queue (lines 402-403) and start
awaiting (line 404).  Returns the emitted actions, the allocated cid
and the updated state; `none` models an `OverflowError` from
`to_bytes`. -/
def writePduSend (s : ClientState) (data : Payload) :
    Option (List SendEvent × Nat × ClientState) := do
  let (tid, s1) := getTid s
  let (cid, s2) := getCid s1
  let cidBytes ← pyToBytes 2 cid
  let lenBytes ← pyToBytes 4 (data.length + 2)
  let msg := lenBytes ++ (cidBytes ++ data)
  let s3 : ClientState := { s2 with messageDict := registerWaiter s2.messageDict cid }
  some ([SendEvent.allocTid tid, SendEvent.allocCid cid, SendEvent.socketWrite msg,
         SendEvent.registerCid cid, SendEvent.awaitResponse cid], cid, s3)

/-- How the `asyncio.wait_for(q.get(), timeout=60)` at line 407 can
end: the queue delivered a response payload, the 60-second timer
fired (`asyncio.TimeoutError`), or the surrounding task was
cancelled (for instance by `_cancel_all_tasks`). -/
inductive AwaitOutcome where
  | delivered (data : Payload)
  | timedOut
  | cancelled
  deriving DecidableEq

/-- What the caller of `_write_pdu` observes: a response pdu parsed
from the delivered bytes (line 409), a response pdu whose
`error.transport` field marks a timeout (line 411), or a propagated
`asyncio.CancelledError` exception, which the `except
asyncio.TimeoutError` handler does not catch. -/
inductive SendResult where
  | success (rdata : Payload)
  | timeoutError
  | raisedCancelled
  deriving DecidableEq

/-- The timeout passed to `asyncio.wait_for` at line 407. -/
def waitForTimeoutSeconds : Nat := 60

/-- The await-and-return phase of `_write_pdu` (lines 404-413).  On
delivery the parsed response is returned; on `TimeoutError` the
timeout-marked pdu is returned; in both cases line 412 deletes the
cid from `message_dict` first.  On cancellation the exception
propagates, so line 412 is never reached and the table is left
untouched. -/
def finishWritePdu (T : Table) (cid : Nat) (o : AwaitOutcome) : SendResult × Table :=
  match o with
  | AwaitOutcome.delivered d => (SendResult.success d, removeCid T cid)
  | AwaitOutcome.timedOut => (SendResult.timeoutError, removeCid T cid)
  | AwaitOutcome.cancelled => (SendResult.raisedCancelled, T)

/-- A whole `_write_pdu` call (lines 388-413): the pre-await phase
followed by the await phase, the latter parameterized by how the
await ends. -/
def writePdu (s : ClientState) (data : Payload) (o : AwaitOutcome) :
    Option (List SendEvent × SendResult × ClientState) := do
  let (evs, cid, s1) ← writePduSend s data
  let (r, T2) := finishWritePdu s1.messageDict cid o
  some (evs, r, { s1 with messageDict := T2 })

/-- One iteration of the `_listener` dispatch (lines 60-65) on an
already-decoded frame: `q = self.message_dict.get(cid, False)`;
when an entry exists, `q.put_nowait(data)` appends to the queue,
raising `QueueFull` (modelled `none`, which breaks the listener loop
via the bare `except`) when the queue of `maxsize=1` already holds
an element; when no entry exists the payload is dropped and the
table is returned unchanged. -/
def handleFrame (T : Table) (f : Nat × Payload) : Option Table :=
  match T f.1 with
  | none => some T
  | some q =>
    if q.length < 1 then some (fun c => if c = f.1 then some (q ++ [f.2]) else T c)
    else none

/-- The `_listener` loop (lines 50-74) over a sequence of decoded
frames: dispatch each in arrival order; an exception stops the loop
(second component `false`) leaving the table as it was at that
point. -/
def runListener : Table → List (Nat × Payload) → Table × Bool
  | T, [] => (T, true)
  | T, f :: fs =>
    match handleFrame T f with
    | some T2 => runListener T2 fs
    | none => (T, false)

/-- Embeds `q.get()` as awaited (via `asyncio.wait_for`) at lines 404-407:
returns the front element of the cid's queue when one is available. -/
def qGet (T : Table) (cid : Nat) : Option (Payload × Table) :=
  match T cid with
  | some (d :: ds) => some (d, fun c => if c = cid then some ds else T c)
  | _ => none

/-- Embeds `cleanup` (lines 29-35): `_cancel_all_tasks` cancels every task
on the loop (each pending await then ends with the
`AwaitOutcome.cancelled` outcome and the listener stops), and
`_disconnect` (lines 85-86) closes the writer.  `message_dict` is
not modified by either step. -/
def cleanup (s : ClientState) : ClientState :=
  { s with connOpen := false }

/-- The client state after `n` successive `_get_cid` allocations. -/
def allocCidN (s : ClientState) : Nat → ClientState
  | 0 => s
  | n + 1 => (getCid (allocCidN s n)).2

/-- A correlation table holding a live entry for cid 5 whose queue
already carries the one-byte response payload `[9]`. -/
def collisionTable : Table :=
  fun c => if c = 5 then some [[9]] else none

/-- A client with one pending request registered under cid 0 and the
cid counter already advanced to 1. -/
def pendingState : ClientState :=
  { tid := 3, cid := 1, messageDict := fun c => if c = 0 then some [] else none,
    connOpen := true }

/-- A correlation table with a single empty waiter registered at cid 0. -/
def awaitingTable : Table :=
  fun c => if c = 0 then some [] else none

/-- The actions of a send of payload `[7]` from a fresh client. -/
def freshSendEvents : List SendEvent :=
  [SendEvent.allocTid 0, SendEvent.allocCid 0,
   SendEvent.socketWrite [0, 0, 0, 3, 0, 0, 7],
   SendEvent.registerCid 0, SendEvent.awaitResponse 0]

/-- Three concurrently registered requests with distinct cids and
distinct payloads. -/
def threeFrames : List (Nat × Payload) :=
  [(0, [10]), (1, [20]), (2, [30])]

/-- A table with empty waiters registered for cids 0, 1 and 2. -/
def threeTable : Table :=
  fun c => if c ≤ 2 then some [] else none

/-- Encoding `natToBytesBE n v` always produces exactly `n` bytes. -/
lemma natToBytesBE_length (n v : Nat) : (natToBytesBE n v).length = n := by
  induction n generalizing v with
  | zero => rfl
  | succ n ih => simp [natToBytesBE, ih]

/-- Big-endian byte round-trip: reading back the `n` bytes of a value
below `256 ^ n` recovers the value. -/
lemma intFromBytesBE_natToBytesBE (n v : Nat) (h : v < 256 ^ n) :
    intFromBytesBE (natToBytesBE n v) = v := by
  induction n generalizing v with
  | zero =>
    have : v = 0 := by simpa using h
    simp [natToBytesBE, intFromBytesBE, this]
  | succ n ih =>
    have hdiv : v / 256 < 256 ^ n := by
      rw [Nat.div_lt_iff_lt_mul (by norm_num)]
      calc v < 256 ^ (n + 1) := h
        _ = 256 ^ n * 256 := by rw [pow_succ]
    have hih := ih (v / 256) hdiv
    simp only [natToBytesBE, intFromBytesBE, List.foldl_append] at *
    simp only [List.foldl_cons, List.foldl_nil, hih]
    omega

/-- Reading exactly `n` bytes from a stream starting with a block of the requested
size returns that block and the rest of the stream. -/
lemma readexactly_append (A s : List Nat) (n : Nat) (h : A.length = n) :
    readexactly (n : Int) (A ++ s) = some (A, s) := by
  unfold readexactly
  rw [if_neg (by omega), if_pos]
  · rw [show ((n : Int)).toNat = n from Int.toNat_natCast n,
      List.take_left' h, List.drop_left' h]
  · rw [Int.toNat_natCast n, List.length_append, ← h]
    omega

/-- Decoding a well-formed frame at the head of the stream yields its
cid and its payload and leaves the rest of the stream untouched. -/
lemma decodeFrame_concat (L cid : Nat) (data rest : List Nat)
    (hL2 : 2 ≤ L) (hL : L < 4294967296) (hcid : cid < 65536)
    (hdata : data.length = L - 2) :
    decodeFrame (natToBytesBE 4 L ++ (natToBytesBE 2 cid ++ (data ++ rest))) =
      some (cid, data, rest) := by
  have h1 := readexactly_append (natToBytesBE 4 L)
    (natToBytesBE 2 cid ++ (data ++ rest)) 4 (natToBytesBE_length 4 L)
  have h2 := readexactly_append (natToBytesBE 2 cid) (data ++ rest) 2
    (natToBytesBE_length 2 cid)
  have h3 : readexactly ((L : Int) - 2) (data ++ rest) = some (data, rest) := by
    have hcast : ((L : Int) - 2) = ((L - 2 : Nat) : Int) := by omega
    rw [hcast]
    exact readexactly_append data rest (L - 2) hdata
  have hLval : intFromBytesBE (natToBytesBE 4 L) = L :=
    intFromBytesBE_natToBytesBE 4 L (by norm_num; omega)
  have hcidval : intFromBytesBE (natToBytesBE 2 cid) = cid :=
    intFromBytesBE_natToBytesBE 2 cid (by norm_num; omega)
  rw [show ((4 : Nat) : Int) = (4 : Int) from rfl] at h1
  rw [show ((2 : Nat) : Int) = (2 : Int) from rfl] at h2
  simp only [decodeFrame, bind, Option.bind, h1, h2, hLval, hcidval, h3]

/-- Under the invariant `cid < 65536`, the wrap-at-65535 update of
`_get_cid` is increment modulo 65536. -/
lemma getCid_cid_mod (s : ClientState) (h : s.cid < 65536) :
    (getCid s).2.cid = (s.cid + 1) % 65536 := by
  unfold getCid
  by_cases hc : s.cid = 65535
  · simp [hc]
  · have : s.cid + 1 < 65536 := by omega
    simp [hc, Nat.mod_eq_of_lt this]

/-- Under the invariant `tid < 4294967296`, the wrap-at-4294967295
update of `_get_tid` is increment modulo 4294967296. -/
lemma getTid_tid_mod (s : ClientState) (h : s.tid < 4294967296) :
    (getTid s).2.tid = (s.tid + 1) % 4294967296 := by
  unfold getTid
  by_cases hc : s.tid = 4294967295
  · simp [hc]
  · have : s.tid + 1 < 4294967296 := by omega
    simp [hc, Nat.mod_eq_of_lt this]

/-- After `n` allocations the cid counter is the start value plus `n`
modulo 65536, and `_get_cid` never touches the tid counter or the
correlation dictionary. -/
lemma allocCidN_spec (s : ClientState) (h : s.cid < 65536) (n : Nat) :
    (allocCidN s n).cid = (s.cid + n) % 65536 ∧
    (allocCidN s n).tid = s.tid ∧
    (allocCidN s n).messageDict = s.messageDict := by
  induction n with
  | zero => simp [allocCidN, Nat.mod_eq_of_lt h]
  | succ n ih =>
    obtain ⟨hc, ht, hm⟩ := ih
    have hlt : (allocCidN s n).cid < 65536 := by rw [hc]; exact Nat.mod_lt _ (by norm_num)
    refine ⟨?_, ?_, ?_⟩
    · rw [show allocCidN s (n + 1) = (getCid (allocCidN s n)).2 from rfl,
        getCid_cid_mod _ hlt, hc, Nat.mod_add_mod]
      omega
    · rw [show allocCidN s (n + 1) = (getCid (allocCidN s n)).2 from rfl]
      unfold getCid
      simpa using ht
    · rw [show allocCidN s (n + 1) = (getCid (allocCidN s n)).2 from rfl]
      unfold getCid
      simpa using hm

/-- Dispatching a list of frames with pairwise-distinct cids, each
cid registered with an empty waiter queue: the listener survives,
every frame's payload ends as the sole element of its own cid's
queue, and entries of unregistered cids are untouched. -/
lemma runListener_distinct (fs : List (Nat × Payload)) :
    ∀ T : Table, (fs.map Prod.fst).Nodup →
      (∀ c ∈ fs.map Prod.fst, T c = some []) →
      (runListener T fs).2 = true ∧
      (∀ cp ∈ fs, (runListener T fs).1 cp.1 = some [cp.2]) ∧
      (∀ c, c ∉ fs.map Prod.fst → (runListener T fs).1 c = T c) := by
  induction fs with
  | nil =>
    intro T _ _
    exact ⟨rfl, by simp, fun c _ => rfl⟩
  | cons f fs ih =>
    intro T hnodup hreg
    have hnodup2 : (f.1 :: fs.map Prod.fst).Nodup := by simpa using hnodup
    have hf : f.1 ∉ fs.map Prod.fst := (List.nodup_cons.mp hnodup2).1
    have hfs : (fs.map Prod.fst).Nodup := (List.nodup_cons.mp hnodup2).2
    have hTf : T f.1 = some [] := hreg f.1 (by simp)
    have hstep : handleFrame T f =
        some (fun c => if c = f.1 then some [f.2] else T c) := by
      unfold handleFrame
      rw [hTf]
      simp
    have hrun : runListener T (f :: fs) =
        runListener (fun c => if c = f.1 then some [f.2] else T c) fs := by
      rw [show runListener T (f :: fs) = (match handleFrame T f with
          | some T2 => runListener T2 fs
          | none => (T, false)) from rfl, hstep]
    set T2 : Table := fun c => if c = f.1 then some [f.2] else T c with hT2
    have hreg2 : ∀ c ∈ fs.map Prod.fst, T2 c = some [] := by
      intro c hc
      have hne : c ≠ f.1 := fun he => hf (he ▸ hc)
      rw [hT2]
      simp only [if_neg hne]
      exact hreg c (by simp [hc])
    obtain ⟨halive, hown, hother⟩ := ih T2 hfs hreg2
    refine ⟨by rw [hrun]; exact halive, ?_, ?_⟩
    · intro cp hcp
      rcases List.mem_cons.mp hcp with hhead | htail
      · subst hhead
        rw [hrun, hother cp.1 hf, hT2]
        simp
      · rw [hrun]
        exact hown cp htail
    · intro c hc
      have hne : c ≠ f.1 := by
        intro he
        exact hc (by simp [he])
      have hc2 : c ∉ fs.map Prod.fst := fun h2 => hc (by simp [h2])
      rw [hrun, hother c hc2, hT2]
      simp [if_neg hne]

/-- When the frame length `len(data) + 2` does not fit the 4-byte
length field, `encode` raises `OverflowError` and emits no frame. -/
lemma encodeFrame_overflow (cid : Nat) (data : List Nat) (hcid : cid < 65536)
    (h : 4294967296 ≤ data.length + 2) : encodeFrame cid data = none := by
  have h1 : pyToBytes 2 cid = some (natToBytesBE 2 cid) := by
    unfold pyToBytes
    rw [if_pos (by norm_num; omega)]
  have h2 : pyToBytes 4 (data.length + 2) = none := by
    unfold pyToBytes
    rw [if_neg (by norm_num; omega)]
  unfold encodeFrame
  simp only [bind, Option.bind, h1, h2]

/-- Evaluation of the pre-await phase of `_write_pdu` when the cid
and the frame length fit their wire fields. -/
lemma writePduSend_eq (s : ClientState) (data : Payload)
    (hcid : s.cid < 65536) (hlen : data.length + 2 < 4294967296) :
    writePduSend s data =
      some ([SendEvent.allocTid s.tid, SendEvent.allocCid s.cid,
             SendEvent.socketWrite (natToBytesBE 4 (data.length + 2) ++
               (natToBytesBE 2 s.cid ++ data)),
             SendEvent.registerCid s.cid, SendEvent.awaitResponse s.cid],
            s.cid,
            { tid := if s.tid = 4294967295 then 0 else s.tid + 1,
              cid := if s.cid = 65535 then 0 else s.cid + 1,
              messageDict := registerWaiter s.messageDict s.cid,
              connOpen := s.connOpen }) := by
  have h1 : pyToBytes 2 s.cid = some (natToBytesBE 2 s.cid) := by
    unfold pyToBytes
    rw [if_pos (by norm_num; omega)]
  have h2 : pyToBytes 4 (data.length + 2) = some (natToBytesBE 4 (data.length + 2)) := by
    unfold pyToBytes
    rw [if_pos (by norm_num; omega)]
  unfold writePduSend getTid getCid
  simp only [bind, Option.bind, h1, h2]

/-- C7: `encode(cid, payload)` emits exactly `4 + 2 + len(payload)`
bytes laid out as the 4-byte big-endian length `len(payload) + 2`,
the 2-byte big-endian cid, then the payload, and decoding the
encoded frame yields back exactly `(cid, payload)` — provided the
payload is short enough for its length to fit the 4-byte field
(at most `2 ^ 32 - 3` bytes). -/
theorem frameRoundTrip (cid : Nat) (payload : Payload)
    (hcid : cid < 65536) (hlen : payload.length + 2 < 4294967296) :
    encodeFrame cid payload =
      some (natToBytesBE 4 (payload.length + 2) ++ (natToBytesBE 2 cid ++ payload)) ∧
    (natToBytesBE 4 (payload.length + 2) ++ (natToBytesBE 2 cid ++ payload)).length =
      4 + 2 + payload.length ∧
    (∀ rest, decodeFrame ((natToBytesBE 4 (payload.length + 2) ++
        (natToBytesBE 2 cid ++ payload)) ++ rest) = some (cid, payload, rest)) ∧
    decodeFrame (natToBytesBE 4 (payload.length + 2) ++ (natToBytesBE 2 cid ++ payload)) =
      some (cid, payload, []) := by
  have h1 : pyToBytes 2 cid = some (natToBytesBE 2 cid) := by
    unfold pyToBytes
    rw [if_pos (by norm_num; omega)]
  have h2 : pyToBytes 4 (payload.length + 2) = some (natToBytesBE 4 (payload.length + 2)) := by
    unfold pyToBytes
    rw [if_pos (by norm_num; omega)]
  refine ⟨?_, ?_, ?_, ?_⟩
  · unfold encodeFrame
    simp only [bind, Option.bind, h1, h2]
  · simp only [List.length_append, natToBytesBE_length]
    omega
  · intro rest
    rw [List.append_assoc, List.append_assoc]
    exact decodeFrame_concat (payload.length + 2) cid payload rest
      (by omega) hlen hcid (by omega)
  · have h := decodeFrame_concat (payload.length + 2) cid payload []
      (by omega) hlen hcid (by omega)
    simpa using h

/-- Witness for C7 at cid 65535 and the one-byte payload `[9]`. -/
theorem frameRoundTripWitness :
    decodeFrame (natToBytesBE 4 3 ++ (natToBytesBE 2 65535 ++ [9])) =
      some (65535, [9], []) :=
  (frameRoundTrip 65535 [9] (by norm_num) (by norm_num)).2.2.2

/-- C7 counterexample: a payload of `2 ^ 32 - 2` bytes cannot be
encoded at all — `length.to_bytes(4, 'big')` at line 396 raises
`OverflowError` because `length = len(payload) + 2 = 2 ^ 32` does
not fit 4 bytes, so no frame is emitted and nothing round-trips. -/
theorem frameRoundTripOverflowCounterexample :
    encodeFrame 0 (List.replicate 4294967294 0) = none :=
  encodeFrame_overflow 0 (List.replicate 4294967294 0) (by norm_num)
    (by rw [List.length_replicate])

/-- C10: the 4-byte big-endian length field is read as an unsigned
integer, so it is never negative; a claimed length smaller than the
2 bytes needed for the cid makes the data read fail (the source asks
`readexactly` for `length - 2`, a negative count, which raises and
stops the listener); and no maximum frame size exists — for every
claimed length up to `2 ^ 32 - 1` the listener simply reads
`length - 2` payload bytes and accepts the frame when they arrive. -/
theorem framingNoValidation (L cid : Nat) (data rest : List Nat)
    (hL : L < 4294967296) (hcid : cid < 65536) :
    (L < 2 → decodeFrame (natToBytesBE 4 L ++
      (natToBytesBE 2 cid ++ (data ++ rest))) = none) ∧
    (2 ≤ L → data.length = L - 2 →
      decodeFrame (natToBytesBE 4 L ++ (natToBytesBE 2 cid ++ (data ++ rest))) =
        some (cid, data, rest)) := by
  constructor
  · intro hL2
    have h1 := readexactly_append (natToBytesBE 4 L)
      (natToBytesBE 2 cid ++ (data ++ rest)) 4 (natToBytesBE_length 4 L)
    have h2 := readexactly_append (natToBytesBE 2 cid) (data ++ rest) 2
      (natToBytesBE_length 2 cid)
    have hLval : intFromBytesBE (natToBytesBE 4 L) = L :=
      intFromBytesBE_natToBytesBE 4 L (by norm_num; omega)
    have h3 : readexactly ((L : Int) - 2) (data ++ rest) = none := by
      unfold readexactly
      rw [if_pos (by omega)]
    rw [show ((4 : Nat) : Int) = (4 : Int) from rfl] at h1
    rw [show ((2 : Nat) : Int) = (2 : Int) from rfl] at h2
    simp only [decodeFrame, bind, Option.bind, h1, h2, hLval, h3]
  · intro hL2 hdata
    exact decodeFrame_concat L cid data rest hL2 hL hcid hdata

/-- Witness for C10 at claimed length 1: the frame is not accepted. -/
theorem framingNoValidationWitness :
    decodeFrame (natToBytesBE 4 1 ++ (natToBytesBE 2 0 ++ ([5] ++ []))) = none :=
  (framingNoValidation 1 0 [5] [] (by norm_num) (by norm_num)).1 (by norm_num)

/-- C10 counterexample: a frame claiming the maximal representable
length `2 ^ 32 - 1` is not rejected — the listener reads the full
`2 ^ 32 - 3` payload bytes and delivers them, so no oversized claimed
length is refused before the receive buffer is filled. -/
theorem oversizedFrameAcceptedCounterexample :
    decodeFrame (natToBytesBE 4 4294967295 ++
        (natToBytesBE 2 0 ++ (List.replicate 4294967293 0 ++ []))) =
      some (0, List.replicate 4294967293 0, []) :=
  decodeFrame_concat 4294967295 0 (List.replicate 4294967293 0) []
    (by norm_num) (by norm_num) (by norm_num)
    (by rw [List.length_replicate])

/-- C8: `_get_cid` and `_get_tid` each return the current counter
value and then increment it, wrapping to 0 after 65535 and
4294967295 respectively; each leaves the other counter (and the
correlation dictionary) untouched; and on a fresh client, whose
first allocated cid is 0, the allocation following the 65536th again
returns 0, the first value ever allocated. -/
theorem sequenceAllocators (s : ClientState)
    (hc : s.cid ≤ 65535) (ht : s.tid ≤ 4294967295) :
    (getCid s).1 = s.cid ∧
    (getTid s).1 = s.tid ∧
    (getCid s).2.cid = (s.cid + 1) % 65536 ∧
    (getTid s).2.tid = (s.tid + 1) % 4294967296 ∧
    (getCid s).2.tid = s.tid ∧
    (getCid s).2.messageDict = s.messageDict ∧
    (getTid s).2.cid = s.cid ∧
    (getTid s).2.messageDict = s.messageDict ∧
    (getCid freshClient).1 = 0 ∧
    (getCid (allocCidN freshClient 65536)).1 = (getCid freshClient).1 := by
  refine ⟨rfl, rfl, getCid_cid_mod s (by omega), getTid_tid_mod s (by omega),
    rfl, rfl, rfl, rfl, rfl, ?_⟩
  have h := (allocCidN_spec freshClient (by norm_num [freshClient]) 65536).1
  have h2 : ∀ t : ClientState, (getCid t).1 = t.cid := fun _ => rfl
  rw [h2, h2, h]
  norm_num [freshClient]

/-- Witness for C8 at the fresh client state. -/
theorem sequenceAllocatorsWitness :
    (getCid freshClient).1 = freshClient.cid ∧
    (getTid freshClient).1 = freshClient.tid :=
  ⟨(sequenceAllocators freshClient (by norm_num [freshClient])
      (by norm_num [freshClient])).1,
   (sequenceAllocators freshClient (by norm_num [freshClient])
      (by norm_num [freshClient])).2.1⟩

/-- C9: a decoded response frame whose cid has no entry in
`message_dict` is silently dropped — the dispatch resolves no
waiter, leaves the whole table (hence every other pending request's
entry and queue) unchanged, and the listener keeps running. -/
theorem lateResponseDropped (T : Table) (c : Nat) (p : Payload) (h : T c = none) :
    handleFrame T (c, p) = some T ∧ runListener T [(c, p)] = (T, true) := by
  have h1 : handleFrame T (c, p) = some T := by
    unfold handleFrame
    rw [h]
  refine ⟨h1, ?_⟩
  rw [show runListener T [(c, p)] = (match handleFrame T (c, p) with
      | some T2 => runListener T2 []
      | none => (T, false)) from rfl, h1]
  rfl

/-- Witness for C9: a frame for cid 0 against an empty table. -/
theorem lateResponseDroppedWitness :
    handleFrame (fun _ => none) (0, [1]) = some (fun _ => none) ∧
    runListener (fun _ => none) [(0, [1])] = ((fun _ => none), true) :=
  lateResponseDropped (fun _ => none) 0 [1] rfl

/-- C1: for any collection of concurrent sends with pairwise-distinct
allocated cids (necessarily at most 65536 of them, each cid being
16-bit), each registered with an empty waiter queue, dispatching the
response frames in ANY arrival order — the frame list is arbitrary,
and the fully reversed order is stated explicitly as well — puts each
frame's payload into exactly the queue of its own cid, so every call
that completes successfully receives precisely the response borne by
its own allocated cid: the correlation table, not arrival order,
decides which request a response satisfies. -/
theorem correlationDelivery (fs : List (Nat × Payload)) (T : Table)
    (hnodup : (fs.map Prod.fst).Nodup)
    (hbound : ∀ c ∈ fs.map Prod.fst, c < 65536)
    (hreg : ∀ c ∈ fs.map Prod.fst, T c = some []) :
    fs.length ≤ 65536 ∧
    (runListener T fs).2 = true ∧
    (∀ cp ∈ fs, (runListener T fs).1 cp.1 = some [cp.2] ∧
      (qGet (runListener T fs).1 cp.1).map Prod.fst = some cp.2) ∧
    (runListener T fs.reverse).2 = true ∧
    (∀ cp ∈ fs, (runListener T fs.reverse).1 cp.1 = some [cp.2]) := by
  obtain ⟨halive, hown, -⟩ := runListener_distinct fs T hnodup hreg
  have hrevnodup : (fs.reverse.map Prod.fst).Nodup := by
    rw [List.map_reverse]
    exact List.nodup_reverse.mpr hnodup
  have hrevreg : ∀ c ∈ fs.reverse.map Prod.fst, T c = some [] := by
    intro c hc
    rw [List.map_reverse, List.mem_reverse] at hc
    exact hreg c hc
  obtain ⟨hrevalive, hrevown, -⟩ := runListener_distinct fs.reverse T hrevnodup hrevreg
  refine ⟨?_, halive, ?_, hrevalive, ?_⟩
  · have hinj : (fs.map Prod.fst).toFinset.card = (fs.map Prod.fst).length :=
      List.toFinset_card_of_nodup hnodup
    have hsub : (fs.map Prod.fst).toFinset ⊆ Finset.range 65536 := by
      intro c hc
      rw [List.mem_toFinset] at hc
      exact Finset.mem_range.mpr (hbound c hc)
    have := Finset.card_le_card hsub
    rw [Finset.card_range, hinj, List.length_map] at this
    exact this
  · intro cp hcp
    have hq := hown cp hcp
    refine ⟨hq, ?_⟩
    simp [qGet, hq]
  · intro cp hcp
    exact hrevown cp (List.mem_reverse.mpr hcp)

/-- Witness for C1: three registered requests, the response for cid 0
lands in the queue registered for cid 0. -/
theorem correlationDeliveryWitness :
    (runListener threeTable threeFrames).1 0 = some [[10]] :=
  ((correlationDelivery threeFrames threeTable (by decide) (by decide)
      (by decide)).2.2.1 (0, [10]) (by decide)).1

/-- C2 counterexample: with a live entry for cid 5 already in the
table (its queue holding the payload `[9]`), the registration step
of lines 402-403 does not fail — there is no `CollisionError`
anywhere in the code — and it silently replaces the live entry with
a fresh empty queue. -/
theorem registerCollisionCounterexample :
    collisionTable 5 = some [[9]] ∧
    registerWaiter collisionTable 5 5 = some [] ∧
    registerWaiter collisionTable 5 5 ≠ collisionTable 5 := by
  refine ⟨rfl, rfl, ?_⟩
  decide

/-- C2 amended: registering a cid never fails; it unconditionally
installs a fresh empty waiter queue under that cid, silently
overwriting any existing entry, and leaves every other cid's entry
unchanged. -/
theorem registerUnconditional (T : Table) (cid : Nat) :
    registerWaiter T cid cid = some [] ∧
    ∀ c, c ≠ cid → registerWaiter T cid c = T c := by
  constructor
  · simp [registerWaiter]
  · intro c hc
    simp [registerWaiter, hc]

/-- Witness for the amended C2 at the concrete collision table. -/
theorem registerUnconditionalWitness :
    registerWaiter collisionTable 5 5 = some [] ∧
    registerWaiter collisionTable 5 7 = collisionTable 7 :=
  ⟨(registerUnconditional collisionTable 5).1,
   (registerUnconditional collisionTable 5).2 7 (by decide)⟩

/-- C4: when the await of `_write_pdu` ends in `TimeoutError` (no
response within the fixed 60-second timeout of line 407), the call
returns the timeout-marked result and, immediately after it
returns, the allocated cid is absent from `message_dict` (line 412
deleted it), leaving the cid eligible for reuse. -/
theorem timeoutRemovesCid (s : ClientState) (data : Payload)
    (hcid : s.cid < 65536) (hlen : data.length + 2 < 4294967296) :
    waitForTimeoutSeconds = 60 ∧
    (writePdu s data AwaitOutcome.timedOut).map (fun r => r.2.1) =
      some SendResult.timeoutError ∧
    (writePdu s data AwaitOutcome.timedOut).map (fun r => r.2.2.messageDict s.cid) =
      some none := by
  refine ⟨rfl, ?_, ?_⟩ <;>
  · unfold writePdu
    rw [writePduSend_eq s data hcid hlen]
    simp [finishWritePdu, removeCid, bind, Option.bind]

/-- Witness for C4: a timed-out send of payload `[7]` from a fresh
client. -/
theorem timeoutRemovesCidWitness :
    waitForTimeoutSeconds = 60 ∧
    (writePdu freshClient [7] AwaitOutcome.timedOut).map (fun r => r.2.1) =
      some SendResult.timeoutError ∧
    (writePdu freshClient [7] AwaitOutcome.timedOut).map
      (fun r => r.2.2.messageDict 0) = some none :=
  timeoutRemovesCid freshClient [7] (by norm_num [freshClient]) (by norm_num)

/-- C5 counterexample: when the connection fails while a call is
awaiting (here the stream dies after 5 bytes, mid-frame, so the
listener's read raises and the loop breaks), the waiter is never
resolved and the await can only end by the timer — the caller then
receives the TIMEOUT result, not a ConnectionLost result (no such
result exists in the code); and a cancelled await propagates
`CancelledError` out of `_write_pdu`, an unhandled exception. -/
theorem connectionFailureCounterexample :
    decodeFrame [0, 0, 0, 5, 0] = none ∧
    (finishWritePdu awaitingTable 0 AwaitOutcome.timedOut).1 =
      SendResult.timeoutError ∧
    (finishWritePdu awaitingTable 0 AwaitOutcome.cancelled).1 =
      SendResult.raisedCancelled :=
  ⟨by decide, rfl, rfl⟩

/-- C5 amended: `_write_pdu` yields a typed result only for the
delivered and timed-out outcomes — success carrying the delivered
payload, or the timeout-marked response; a cancelled await
propagates `CancelledError` to the caller (and skips the table
deletion); and the result vocabulary is exactly these three cases,
with no ConnectionLost result among them. -/
theorem sendResultTaxonomy (T : Table) (cid : Nat) :
    (∀ d, finishWritePdu T cid (AwaitOutcome.delivered d) =
      (SendResult.success d, removeCid T cid)) ∧
    finishWritePdu T cid AwaitOutcome.timedOut =
      (SendResult.timeoutError, removeCid T cid) ∧
    finishWritePdu T cid AwaitOutcome.cancelled =
      (SendResult.raisedCancelled, T) ∧
    (∀ r : SendResult, (∃ d, r = SendResult.success d) ∨
      r = SendResult.timeoutError ∨ r = SendResult.raisedCancelled) := by
  refine ⟨fun d => rfl, rfl, rfl, ?_⟩
  intro r
  cases r with
  | success d => exact Or.inl ⟨d, rfl⟩
  | timeoutError => exact Or.inr (Or.inl rfl)
  | raisedCancelled => exact Or.inr (Or.inr rfl)

/-- C6 counterexample: in the action sequence of a send from a fresh
client, the socket write (line 401) strictly precedes the
registration of the waiter in `message_dict` (line 403), refuting
the claimed register-then-write order. -/
theorem writeBeforeRegisterCounterexample :
    (writePduSend freshClient [7]).map (fun r => r.1) = some freshSendEvents ∧
    freshSendEvents.indexOf (SendEvent.socketWrite [0, 0, 0, 3, 0, 0, 7]) <
      freshSendEvents.indexOf (SendEvent.registerCid 0) := by
  exact ⟨rfl, by decide⟩

/-- C6 amended: `_write_pdu` allocates the tid, allocates the cid,
writes the encoded frame to the socket, and only THEN registers the
cid's waiter — registration follows the write but precedes the
await, and no suspension point separates the write from the
registration, so when the call suspends awaiting the response the
cid already has a registered (still empty) waiter. -/
theorem sendActionOrder (s : ClientState) (data : Payload)
    (hcid : s.cid < 65536) (hlen : data.length + 2 < 4294967296) :
    (writePduSend s data).map (fun r => r.1) =
      some [SendEvent.allocTid s.tid, SendEvent.allocCid s.cid,
            SendEvent.socketWrite (natToBytesBE 4 (data.length + 2) ++
              (natToBytesBE 2 s.cid ++ data)),
            SendEvent.registerCid s.cid, SendEvent.awaitResponse s.cid] ∧
    (writePduSend s data).map (fun r => r.2.2.messageDict s.cid) = some (some []) := by
  rw [writePduSend_eq s data hcid hlen]
  constructor
  · rfl
  · simp [registerWaiter]

/-- Witness for the amended C6 at a fresh client. -/
theorem sendActionOrderWitness :
    (writePduSend freshClient [7]).map (fun r => r.1) =
      some [SendEvent.allocTid 0, SendEvent.allocCid 0,
            SendEvent.socketWrite [0, 0, 0, 3, 0, 0, 7],
            SendEvent.registerCid 0, SendEvent.awaitResponse 0] ∧
    (writePduSend freshClient [7]).map (fun r => r.2.2.messageDict 0) =
      some (some []) :=
  sendActionOrder freshClient [7] (by norm_num [freshClient]) (by norm_num)

/-- C3 counterexample: with one request pending under cid 0,
`cleanup` leaves its entry in `message_dict` (nothing resolves it
with ConnectionLost — the cancelled task makes the caller observe a
propagated `CancelledError` instead), and a send attempted after
cleanup still runs the full write path, emitting the socket write,
rather than returning a TransportClosed result (which does not
exist in the code). -/
theorem cleanupCounterexample :
    (cleanup pendingState).messageDict 0 = some [] ∧
    (finishWritePdu (cleanup pendingState).messageDict 0 AwaitOutcome.cancelled).1 =
      SendResult.raisedCancelled ∧
    (writePduSend (cleanup pendingState) [7]).map (fun r => r.1) =
      some [SendEvent.allocTid 3, SendEvent.allocCid 1,
            SendEvent.socketWrite [0, 0, 0, 3, 0, 1, 7],
            SendEvent.registerCid 1, SendEvent.awaitResponse 1] :=
  ⟨rfl, rfl, rfl⟩

/-- C3 amended: `cleanup` cancels every task and closes the socket
but does not touch `message_dict`: every entry pending at that
moment remains in the table, its caller observing a propagated
`CancelledError` (not a ConnectionLost result), and a subsequently
attempted send performs no closed-connection check — it still
allocates, encodes and writes the frame to the (closed) socket
instead of returning immediately. -/
theorem cleanupBehavior (s : ClientState) (cid : Nat) (data : Payload)
    (hcid : s.cid < 65536) (hlen : data.length + 2 < 4294967296) :
    (cleanup s).messageDict = s.messageDict ∧
    (cleanup s).connOpen = false ∧
    finishWritePdu (cleanup s).messageDict cid AwaitOutcome.cancelled =
      (SendResult.raisedCancelled, s.messageDict) ∧
    (writePduSend (cleanup s) data).map (fun r => r.1) =
      some [SendEvent.allocTid s.tid, SendEvent.allocCid s.cid,
            SendEvent.socketWrite (natToBytesBE 4 (data.length + 2) ++
              (natToBytesBE 2 s.cid ++ data)),
            SendEvent.registerCid s.cid, SendEvent.awaitResponse s.cid] := by
  refine ⟨rfl, rfl, rfl, ?_⟩
  rw [writePduSend_eq (cleanup s) data hcid hlen]
  rfl

/-- Witness for the amended C3 at the one-pending-request state. -/
theorem cleanupBehaviorWitness :
    (cleanup pendingState).messageDict = pendingState.messageDict ∧
    (cleanup pendingState).connOpen = false ∧
    finishWritePdu (cleanup pendingState).messageDict 0 AwaitOutcome.cancelled =
      (SendResult.raisedCancelled, pendingState.messageDict) ∧
    (writePduSend (cleanup pendingState) [7]).map (fun r => r.1) =
      some [SendEvent.allocTid 3, SendEvent.allocCid 1,
            SendEvent.socketWrite [0, 0, 0, 3, 0, 1, 7],
            SendEvent.registerCid 1, SendEvent.awaitResponse 1] :=
  cleanupBehavior pendingState 0 [7] (by norm_num [pendingState]) (by norm_num)

end PundunClient
